import Mathlib

/-!
# Verification of the Easy-Translator export/import services

Shallow embedding of the translation export/import logic of the repository:

* `src/src/services/exportLanguageService.tsx` (class `exportLanguageService`)
* the import service (class `importLanguageService`, `src/unnamed/part_001`)
* the data model (`src/src/model/viewModel.tsx`)

Language codes are strings in the data model (`LanguageDef.code : string`,
`LangTranslation.code : string`); workbook cells hold strings or numbers.
-/

namespace EasyTranslator

/-- A workbook cell value: `null`/absent, a string, or a number.
Only integer numbers occur in the sheets this tool reads and writes
(language codes, option values), so numbers are modelled as `Int`. -/
inductive CellVal where
  | empty : CellVal
  | str (s : String) : CellVal
  | num (n : Int) : CellVal
deriving DecidableEq, Repr

/-- JS `String(v ?? "")`: the string form of a cell, `""` for a null cell. -/
def CellVal.jsString : CellVal → String
  | .empty => ""
  | .str s => s
  | .num n => toString n

/-- Numeric value of a decimal digit, `none` otherwise. -/
def digitVal (c : Char) : Option Nat :=
  if '0' ≤ c ∧ c ≤ '9' then some (c.toNat - '0'.toNat) else none

/-- Parse a non-empty all-digit character list as a natural number. -/
def parseNatChars : List Char → Option Nat
  | [] => none
  | cs => cs.foldl (fun acc c =>
      match acc, digitVal c with
      | some n, some d => some (n * 10 + d)
      | _, _ => none) (some 0)

/-- JS `Number` on a string, restricted to the integer numerals these
sheets carry (`none` stands for `NaN`): `Number("") = 0`, an optionally
`-`-signed digit string is its value, anything else is `NaN`. -/
def parseJsInt (s : String) : Option Int :=
  if s = "" then some 0
  else match s.toList with
    | '-' :: rest => (parseNatChars rest).map fun n => -(n : Int)
    | cs => (parseNatChars cs).map fun n => (n : Int)

/-- JS `Number(String(v ?? ""))`, with `none` standing for `NaN`.
A null cell gives `Number("") = 0`; a numeric cell is its own value; a
string cell is parsed as an integer numeral. -/
def CellVal.jsNumber : CellVal → Option Int
  | .empty => some 0
  | .num n => some n
  | .str s => parseJsInt s

/-- ASCII whitespace, the only whitespace these sheets can carry. -/
def isSpaceChar (c : Char) : Bool :=
  c = ' ' ∨ c = '\t' ∨ c = '\n' ∨ c = '\r'

/-- JS `String.prototype.trim` (ASCII whitespace). -/
def jsTrim (s : String) : String :=
  ⟨((s.toList.dropWhile isSpaceChar).reverse.dropWhile isSpaceChar).reverse⟩

/-- A sheet row; `getCell` is 1-indexed as in ExcelJS, a missing cell is null. -/
abbrev Row : Type := List CellVal

def Row.getCell (r : Row) (i : Nat) : CellVal := r.getD (i - 1) .empty

/-- A worksheet: the header row (ExcelJS row 1) followed by the data rows. -/
structure Sheet where
  header : Row
  rows : List Row
deriving DecidableEq

/-- ExcelJS `sheet.columnCount`: number of columns in the sheet. -/
def Sheet.columnCount (s : Sheet) : Nat :=
  (s.header :: s.rows).foldl (fun m r => max m (List.length r)) 0

/-- ExcelJS `sheet.rowCount` (header plus data rows). -/
def Sheet.rowCount (s : Sheet) : Nat := s.rows.length + 1

/-- ExcelJS `sheet.getRow(i)`, 1-indexed; row 1 is the header. -/
def Sheet.getRow (s : Sheet) (i : Nat) : Row :=
  (s.header :: s.rows).getD (i - 1) []

/-- `importLanguageService.getLanguageColumns`: read LCID codes from the
header row from `startCol` to `columnCount`, skipping null cells and
converting each value with `Number` (`none` = `NaN`). -/
def getLanguageColumns (s : Sheet) (startCol : Nat) : List (Option Int) :=
  ((List.range' startCol (s.columnCount + 1 - startCol)).filterMap fun col =>
    match s.header.getCell col with
    | .empty => none
    | v => some v.jsNumber)

/-- The header scan shared by `importFormNames`, `prepareFormContent` and
`prepareSiteMapContent`: the first column (from column 1 up to
`columnCount`) whose header value converts with `Number` to a number
strictly greater than 1000; `none` when no column qualifies. -/
def findLangCol (s : Sheet) : Option Nat :=
  (List.range' 1 s.columnCount).find? fun col =>
    match (s.header.getCell col).jsNumber with
    | some n => decide (n > 1000)
    | none => false

/-- `langStartCol` as computed in the import helpers: the scan result,
falling back to the helper-specific default when no column qualifies. -/
def detectLangStart (s : Sheet) (deflt : Nat) : Nat :=
  (findLangCol s).getD deflt

/-- The loop body of `importLanguageService.readLabels`: for each LCID in
turn, read the cell at the current column, keeping it only when non-null
with a non-blank string form. -/
def readLabelsGo (row : Row) : Nat → List (Option Int) → List (Option Int × String)
  | _, [] => []
  | col, lcid :: rest =>
    (match row.getCell col with
     | .empty => []
     | v => if jsTrim v.jsString = "" then [] else [(lcid, v.jsString)])
      ++ readLabelsGo row (col + 1) rest

/-- `importLanguageService.readLabels`: map of LCID -> label string read
positionally from `startCol` (cell `startCol + i` for `lcids[i]`).
Represented as an association list in column order (JS object key order
is immaterial to the properties below). -/
def readLabels (row : Row) (startCol : Nat) (lcids : List (Option Int)) :
    List (Option Int × String) :=
  readLabelsGo row startCol lcids

/-- `importLanguageService.stripBraces`: remove every `\x7b` and `\x7d`. -/
def stripBraces (s : String) : String :=
  ⟨s.toList.filter fun c => c ≠ '{' ∧ c ≠ '}'⟩

/-- `LanguageDef` (`src/src/model/viewModel.tsx`): code and display name,
both strings. -/
structure LanguageDef where
  code : String
  name : String
deriving DecidableEq, Repr

/-- `exportTranslations` lines 34-38: the output language list is either
all languages or the single selected one, with the base language appended
when no listed language shares its code. -/
def computeOutputLangs (exportAllLanguages : Bool) (allLanguages : List LanguageDef)
    (selectedLanguage : LanguageDef) (baseLanguage : LanguageDef) : List LanguageDef :=
  let outputLangs := if exportAllLanguages then allLanguages else [selectedLanguage]
  if outputLangs.any fun ld => ld.code = baseLanguage.code then outputLangs
  else outputLangs ++ [baseLanguage]

/-! ## XML documents

Layout documents (form/dashboard XML, site-map XML) are modelled as rose
trees of elements; attributes are ordered name/value pairs.  DOM lookups
used by the code: `getAttribute` (first attribute of that name, `none`
when absent), `querySelector("tag")` (first matching descendant in
pre-order, self excluded), `querySelector(":scope > tag")` (first
matching direct child), `getElementsByTagName` (all matching elements of
the subtree in pre-order). -/

inductive XElem where
  | mk (tag : String) (attrs : List (String × String)) (children : List XElem)
deriving Repr

def XElem.tag : XElem → String | .mk t _ _ => t

def XElem.attrs : XElem → List (String × String) | .mk _ a _ => a

def XElem.children : XElem → List XElem | .mk _ _ cs => cs

mutual
def XElem.decEq : (a b : XElem) → Decidable (a = b)
  | .mk t a cs, .mk t' a' cs' =>
    match String.decEq t t', instDecidableEqList a a', XElem.decEqList cs cs' with
    | isTrue h1, isTrue h2, isTrue h3 => isTrue (by rw [h1, h2, h3])
    | isFalse h, _, _ => isFalse (by intro hh; cases hh; exact h rfl)
    | _, isFalse h, _ => isFalse (by intro hh; cases hh; exact h rfl)
    | _, _, isFalse h => isFalse (by intro hh; cases hh; exact h rfl)
def XElem.decEqList : (a b : List XElem) → Decidable (a = b)
  | [], [] => isTrue rfl
  | [], _ :: _ => isFalse (by intro h; cases h)
  | _ :: _, [] => isFalse (by intro h; cases h)
  | c :: cs, c' :: cs' =>
    match XElem.decEq c c', XElem.decEqList cs cs' with
    | isTrue h1, isTrue h2 => isTrue (by rw [h1, h2])
    | isFalse h, _ => isFalse (by intro hh; cases hh; exact h rfl)
    | _, isFalse h => isFalse (by intro hh; cases hh; exact h rfl)
end

instance : DecidableEq XElem := XElem.decEq

/-- DOM `getAttribute`: value of the first attribute with that name. -/
def XElem.getAttr (name : String) (e : XElem) : Option String :=
  (e.attrs.find? fun p => p.1 == name).map (·.2)

mutual
/-- First proper descendant satisfying `p`, in document pre-order
(DOM `querySelector` with a tag selector, scoped to `e`). -/
def XElem.findDesc (p : XElem → Bool) : XElem → Option XElem
  | .mk _ _ cs => XElem.findDescList p cs
def XElem.findDescList (p : XElem → Bool) : List XElem → Option XElem
  | [] => none
  | c :: cs =>
    if p c then some c
    else match XElem.findDesc p c with
      | some r => some r
      | none => XElem.findDescList p cs
end

/-- `element.querySelector("t")`: first descendant with tag `t`. -/
def XElem.querySelectorTag (t : String) (e : XElem) : Option XElem :=
  e.findDesc fun c => c.tag == t

mutual
/-- Rewrite the first proper descendant satisfying `p` with `f`
(in-place DOM mutation of the first `getElementsByTagName` match),
returning the updated tree and whether a match was found. -/
def XElem.patchDesc (p : XElem → Bool) (f : XElem → XElem) : XElem → XElem × Bool
  | .mk t a cs =>
    let r := XElem.patchDescList p f cs
    (.mk t a r.1, r.2)
def XElem.patchDescList (p : XElem → Bool) (f : XElem → XElem) :
    List XElem → List XElem × Bool
  | [] => ([], false)
  | c :: cs =>
    if p c then (f c :: cs, true)
    else
      let r := XElem.patchDesc p f c
      if r.2 then (r.1 :: cs, true)
      else
        let r' := XElem.patchDescList p f cs
        (c :: r'.1, r'.2)
end

/-- Rewrite the first element of the whole document (root included, as
`document.getElementsByTagName` includes the document element). -/
def XElem.patchDoc (p : XElem → Bool) (f : XElem → XElem) (root : XElem) : XElem × Bool :=
  if p root then (f root, true) else root.patchDesc p f

/-- String form of an LCID key (`String(lcid)` on a JS record key;
`none` is the `NaN` key). -/
def lcidStr : Option Int → String
  | some n => toString n
  | none => "NaN"

/-- The `<label description=... languagecode=...>` children built by
`prepareFormContent` (lines 823-828). -/
def renderFormLabels (labels : List (Option Int × String)) : List XElem :=
  labels.map fun kv => .mk "label" [("description", kv.2), ("languagecode", lcidStr kv.1)] []

/-- `prepareFormContent` lines 812-828 applied to the located element:
find the first `labels` descendant (creating one as first child when
absent), clear it and refill it with one `label` child per entry. -/
def XElem.setLabelsOn (labels : List (Option Int × String)) (e : XElem) : XElem :=
  let r := e.patchDesc (fun c => c.tag == "labels")
    (fun l => .mk l.tag l.attrs (renderFormLabels labels))
  if r.2 then r.1
  else .mk e.tag e.attrs (.mk "labels" [] (renderFormLabels labels) :: e.children)

/-- `prepareFormContent` lines 795-832 as one document transformation:
locate the first element of the given tag whose `id` (or, as fallback,
`name`) attribute equals `elementId` and rewrite its labels; the flag
reports whether the element was found. -/
def patchLayoutElement (tagName elementId : String) (labels : List (Option Int × String))
    (doc : XElem) : XElem × Bool :=
  doc.patchDoc
    (fun e => e.tag == tagName &&
      (e.getAttr "id" == some elementId || e.getAttr "name" == some elementId))
    (XElem.setLabelsOn labels)

/-- The caption children built by `prepareSiteMapContent` (lines 981-986):
`<Title LCID=... Title=...>` or `<Description LCID=... Description=...>`. -/
def renderSiteMapLabels (childTag labelAttr : String)
    (labels : List (Option Int × String)) : List XElem :=
  labels.map fun kv => .mk childTag [("LCID", lcidStr kv.1), (labelAttr, kv.2)] []

/-- The direct-child container update of `prepareSiteMapContent` lines
970-986: `querySelector(":scope > name")` finds the first direct child
with that tag and its children are replaced; when absent a fresh
container is created and appended (`appendChild`). -/
def setDirectContainer (name : String) (newKids : List XElem) : List XElem → List XElem
  | [] => [.mk name [] newKids]
  | c :: cs =>
    if c.tag == name then .mk c.tag c.attrs newKids :: cs
    else c :: setDirectContainer name newKids cs

/-- `prepareSiteMapContent` lines 966-986 applied to the located element:
route by the row's Type to a `Descriptions` or `Titles` container that is
a direct child, creating it when absent, then clear and refill it. -/
def XElem.setSiteMapCaptionOn (ty : String) (labels : List (Option Int × String))
    (e : XElem) : XElem :=
  let containerName := if ty == "Description" then "Descriptions" else "Titles"
  let labelAttr := if ty == "Description" then "Description" else "Title"
  let childTag := if containerName == "Titles" then "Title" else "Description"
  .mk e.tag e.attrs
    (setDirectContainer containerName (renderSiteMapLabels childTag labelAttr labels)
      e.children)

/-! ## Site-map caption extraction (export direction)

`exportSiteMap` (`exportLanguageService.tsx` lines 780-883).  Each Area /
Group / SubArea synthetic node reads its `Title` and `Description`
translation lists from a caption container located with `querySelector`;
only the Group's `Titles` lookup re-checks that the found container's
parent is the group itself. -/

/-- Translations read from a caption container's children:
`(LCID attribute, Title/Description attribute)`, missing attributes
becoming `""` (lines 793-798 etc.). -/
def captionTranslations (attrName : String) : Option XElem → List (String × String)
  | some c => c.children.map fun l => ((l.getAttr "LCID").getD "", (l.getAttr attrName).getD "")
  | none => []

/-- `area.querySelector("Titles")` (line 785): first descendant, any depth. -/
def areaTitleTranslations (area : XElem) : List (String × String) :=
  captionTranslations "Title" (area.querySelectorTag "Titles")

/-- `area.querySelector("Descriptions")` (line 786). -/
def areaDescriptionTranslations (area : XElem) : List (String × String) :=
  captionTranslations "Description" (area.querySelectorTag "Descriptions")

/-- Lines 816-817: `group.querySelector("Titles")`, nulled when the found
container's parent element is not the group itself. -/
def groupTitlesContainer (g : XElem) : Option XElem :=
  match g.querySelectorTag "Titles" with
  | some t => if g.children.contains t then some t else none
  | none => none

def groupTitleTranslations (g : XElem) : List (String × String) :=
  captionTranslations "Title" (groupTitlesContainer g)

/-- Line 818: `group.querySelector("Descriptions")`, no parent check. -/
def groupDescriptionTranslations (g : XElem) : List (String × String) :=
  captionTranslations "Description" (g.querySelectorTag "Descriptions")

/-- Lines 848-849: `subarea.querySelector(...)`, no parent check. -/
def subareaTitleTranslations (sa : XElem) : List (String × String) :=
  captionTranslations "Title" (sa.querySelectorTag "Titles")

def subareaDescriptionTranslations (sa : XElem) : List (String × String) :=
  captionTranslations "Description" (sa.querySelectorTag "Descriptions")

/-- A site-map Area as found in the wild for claim analysis: the area has
no caption container of its own, while its Group carries a `Titles`
container. -/
def nestedTitlesArea : XElem :=
  .mk "Area" [("Id", "MainArea")]
    [.mk "Group" [("Id", "SalesGroup")]
      [.mk "Titles" [] [.mk "Title" [("LCID", "1033"), ("Title", "Sales")] []]]]

/-! ## Language sweep (export direction)

`exportForms` lines 457-487.  `currentLang` starts at the recorded
`uiLocale`; for each output language differing from the current one an
`updateLanguage` call is issued before fetching; the `updateLanguage`
revert to `uiLocale` at line 487 runs after the loop, with no
`try`/`finally` around the loop, so a throwing fetch propagates out of
`exportForms` (and out of `exportTranslations`, whose catch only logs)
before the revert line is reached. -/

/-- One sweep run: returns the ordered list of `updateLanguage` calls
issued and `true` when the sweep completed normally (`false`: some fetch
threw and the exception propagated before the revert). -/
def exportFormsSweepGo (uiLocale : String) (fetchOk : String → Bool) :
    String → List String → List String × Bool
  | _, [] => ([uiLocale], true)
  | currentLang, lang :: rest =>
    let calls := if currentLang ≠ lang then [lang] else []
    if fetchOk lang then
      let r := exportFormsSweepGo uiLocale fetchOk lang rest
      (calls ++ r.1, r.2)
    else (calls, false)

def exportFormsSweep (uiLocale : String) (outputLangs : List String)
    (fetchOk : String → Bool) : List String × Bool :=
  exportFormsSweepGo uiLocale fetchOk uiLocale outputLangs

/-- The locale left active after the sweep: the argument of the last
`updateLanguage` call, or the untouched original when none was issued. -/
def finalLocale (uiLocale : String) (calls : List String) : String :=
  calls.getLast?.getD uiLocale

/-! ## Form-content preparation (import direction)

`prepareFormContent` (`importLanguageService`, lines 736-842).  The cache
of fetched layout documents (`formUpdates`) is a JS `Map`, modelled as an
insertion-ordered association list; the reserialize step (line 832) and
the reparse of the cached text on the next row (line 793) compose to the
identity on the document tree, so the cache stores the tree itself. -/

def mapGet {κ α : Type} [BEq κ] (m : List (κ × α)) (k : κ) : Option α :=
  (m.find? fun p => p.1 == k).map (·.2)

def mapSet {κ α : Type} [BEq κ] : List (κ × α) → κ → α → List (κ × α)
  | [], k, v => [(k, v)]
  | (k', v') :: rest, k, v =>
    if k' == k then (k', v) :: rest else (k', v') :: mapSet rest k v

/-- One row of the `prepareFormContent` loop body (lines 768-838): the
cache after the row, and whether the loop continues.  `false` corresponds
to a TypeScript `return` in the loop body, which exits the whole function
(missing form or element id, no non-empty language cell, failed form
fetch, element not found), abandoning the remaining rows of the sheet. -/
def prepareFormRowStep (fetch : String → Option XElem) (tagName : String)
    (langStartCol : Nat) (lcids : List (Option Int)) (row : Row)
    (cache : List (String × XElem)) : List (String × XElem) × Bool :=
  let elementId := jsTrim (row.getCell 1).jsString
  let formId := stripBraces (row.getCell 5).jsString
  if formId = "" ∨ elementId = "" then (cache, false)
  else
    let labels := readLabels row langStartCol lcids
    if labels.isEmpty then (cache, false)
    else
      match (match mapGet cache formId with
             | some doc => some (cache, doc)
             | none =>
               match fetch formId with
               | some doc => some (mapSet cache formId doc, doc)
               | none => none) with
      | none => (cache, false)
      | some (cache', doc) =>
        let r := patchLayoutElement tagName elementId labels doc
        if r.2 then (mapSet cache' formId r.1, true)
        else (cache', false)

/-- The row loop of `prepareFormContent`: rows in order, stopping at the
first row whose body hits a `return`. -/
def prepareFormContentRows (fetch : String → Option XElem) (tagName : String)
    (langStartCol : Nat) (lcids : List (Option Int)) :
    List Row → List (String × XElem) → List (String × XElem)
  | [], cache => cache
  | row :: rest, cache =>
    let r := prepareFormRowStep fetch tagName langStartCol lcids row cache
    if r.2 then prepareFormContentRows fetch tagName langStartCol lcids rest r.1
    else r.1

/-- `prepareFormContent` on a whole sheet: language start column detected
from the header (default 6), element tag chosen by content type, then the
row loop over the data rows in order. -/
def prepareFormContent (fetch : String → Option XElem) (contentType : String)
    (sheet : Sheet) (formUpdates : List (String × XElem)) : List (String × XElem) :=
  let langStartCol := detectLangStart sheet 6
  let lcids := getLanguageColumns sheet langStartCol
  let tagName := if contentType == "tab" then "tab"
    else if contentType == "section" then "section" else "cell"
  prepareFormContentRows fetch tagName langStartCol lcids sheet.rows formUpdates

/-- A Forms Tabs sheet whose row 2 lacks the mandatory Tab Id and whose
row 3 is fully valid. -/
def tabsSheetWithBadRow : Sheet :=
  { header := [.str "Tab Id", .str "Entity Logical Name", .str "Form Name",
      .str "Form Unique Id", .str "Form Id", .num 1033],
    rows := [
      [.empty, .str "account", .str "Main", .str "\x7bFU1\x7d", .str "\x7bF1\x7d", .str "Bonjour"],
      [.str "tab1", .str "account", .str "Main", .str "\x7bFU1\x7d", .str "\x7bF1\x7d", .str "Hello"]] }

/-- The same sheet with only the valid row. -/
def tabsSheetValidOnly : Sheet :=
  { header := tabsSheetWithBadRow.header,
    rows := [
      [.str "tab1", .str "account", .str "Main", .str "\x7bFU1\x7d", .str "\x7bF1\x7d", .str "Hello"]] }

/-- The form document `F1` served by the repository in the C4 scenario. -/
def c4FormDoc : XElem :=
  .mk "form" [] [.mk "tab" [("id", "tab1")] [.mk "labels" [] []]]

/-- The fetch oracle for the C4 scenario: form `F1` exists. -/
def c4Fetch (formId : String) : Option XElem :=
  if formId == "F1" then some c4FormDoc else none

/-! ## Metadata tree model and sheet projection (export direction)

`LangTranslation`, `LangProp` (`src/src/model/viewModel.tsx`) and the row
construction of `exportTableInfo` (lines 100-131) and `exportBooleans`
(lines 244-292). -/

structure LangTranslation where
  code : String
  translation : String
deriving DecidableEq, Repr

structure LangProp where
  name : String
  translation : List LangTranslation
deriving DecidableEq, Repr

structure TableDef where
  id : String
  logicalName : String
  langProps : List LangProp
deriving DecidableEq, Repr

inductive LabelOptions where
  | both | names | descriptions
deriving DecidableEq, Repr

/-- `exportTableInfo` lines 112-117: the label-qualifier filter. -/
def tableInfoLangProps (opts : LabelOptions) (t : TableDef) : List LangProp :=
  match opts with
  | .both => t.langProps
  | .names => t.langProps.filter fun lp =>
      lp.name = "DisplayCollectionName" ∨ lp.name = "DisplayName"
  | .descriptions => t.langProps.filter fun lp => lp.name = "Description"

/-- `exportTableInfo` lines 119-124: one row per surviving qualifier; the
language cells are the row's stored translation texts in list order
(positional, `langProp.translation.map((trans) => trans.translation)`). -/
def exportTableInfoRow (t : TableDef) (lp : LangProp) : Row :=
  [.str ("\x7b" ++ t.id ++ "\x7d"), .str t.logicalName, .str lp.name]
    ++ lp.translation.map fun tr => CellVal.str tr.translation

/-- The Entities sheet built by `exportTableInfo`: header with three
identity columns then one column per output language code, and the rows
of every selected table in order. -/
def exportTableInfoSheet (opts : LabelOptions) (outputLangs : List LanguageDef)
    (tables : List TableDef) : Sheet :=
  { header := [.str "Entity Id", .str "Entity Logical Name", .str "Type"]
      ++ outputLangs.map fun lang => CellVal.str lang.code,
    rows := tables.flatMap fun t =>
      (tableInfoLangProps opts t).map (exportTableInfoRow t) }

/-- `exportBooleans` lines 281-284: the language cells of a Booleans (or
option-set) row are looked up per output language by code, the empty
string when the translation list has no entry for that code. -/
def exportBooleanLangCells (outputLangs : List LanguageDef) (langProp : LangProp) :
    List CellVal :=
  outputLangs.map fun lang =>
    match langProp.translation.find? fun t => t.code = lang.code with
    | some tr => CellVal.str tr.translation
    | none => CellVal.str ""

/-! ## Entities sheet import (`importEntities`, lines 275-333) -/

/-- One entity's accumulated label dictionaries. -/
structure EntityLabels where
  displayName : List (Option Int × String)
  displayCollectionName : List (Option Int × String)
  description : List (Option Int × String)
deriving DecidableEq, Repr

/-- JS object spread `\x7b...old, ...labels\x7d`: existing keys keep
their position and take the new value, new keys are appended in order. -/
def recordMerge (old new_ : List (Option Int × String)) : List (Option Int × String) :=
  new_.foldl (fun acc kv => mapSet acc kv.1 kv.2) old

/-- The row grouping of `importEntities` (lines 287-303): rows lacking the
logical name or Type are skipped; otherwise the row's labels are merged
into the qualifier dictionary selected by the Type column.  The entity
map is a JS `Map` (insertion-ordered). -/
def importEntitiesGroups (sheet : Sheet) : List (String × EntityLabels) :=
  let lcids := getLanguageColumns sheet 4
  sheet.rows.foldl (fun entityMap row =>
    let entityLogicalName := jsTrim (row.getCell 2).jsString
    let ty := jsTrim (row.getCell 3).jsString
    if entityLogicalName = "" ∨ ty = "" then entityMap
    else
      let entityMap := if (mapGet entityMap entityLogicalName).isSome then entityMap
        else mapSet entityMap entityLogicalName ⟨[], [], []⟩
      let entry := (mapGet entityMap entityLogicalName).getD ⟨[], [], []⟩
      let labels := readLabels row 4 lcids
      if ty = "DisplayName" then
        mapSet entityMap entityLogicalName
          { entry with displayName := recordMerge entry.displayName labels }
      else if ty = "DisplayCollectionName" then
        mapSet entityMap entityLogicalName
          { entry with displayCollectionName := recordMerge entry.displayCollectionName labels }
      else if ty = "Description" then
        mapSet entityMap entityLogicalName
          { entry with description := recordMerge entry.description labels }
      else entityMap) []

/-- One `updateEntityMetadata` call (lines 310-315): each dictionary is
passed when non-empty, `null` otherwise. -/
structure EntityUpdateCall where
  logicalName : String
  displayName : Option (List (Option Int × String))
  displayCollectionName : Option (List (Option Int × String))
  description : Option (List (Option Int × String))
deriving DecidableEq, Repr

/-- The `updateEntityMetadata` calls issued for an Entities sheet, in
map-insertion order (lines 308-328). -/
def importEntitiesCalls (sheet : Sheet) : List EntityUpdateCall :=
  (importEntitiesGroups sheet).map fun nd =>
    ⟨nd.1,
     if nd.2.displayName.length > 0 then some nd.2.displayName else none,
     if nd.2.displayCollectionName.length > 0 then some nd.2.displayCollectionName else none,
     if nd.2.description.length > 0 then some nd.2.description else none⟩

/-- C2's property instantiated at the Entities sheet: exporting the
given tables and importing the produced sheet unmodified issues no
update call carrying a non-empty label dictionary. -/
def entitiesRoundTripSilent (opts : LabelOptions) (outputLangs : List LanguageDef)
    (tables : List TableDef) : Prop :=
  ∀ call ∈ importEntitiesCalls (exportTableInfoSheet opts outputLangs tables),
    call.displayName = none ∧ call.displayCollectionName = none ∧
    call.description = none

/-- The one-entity metadata tree of the C2 counterexample. -/
def c2Table : TableDef :=
  ⟨"11111111", "account", [⟨"DisplayName", [⟨"1033", "Account"⟩]⟩]⟩

/-- The output language list of the C2/C3 counterexamples. -/
def enFrLangs : List LanguageDef := [⟨"1033", "English"⟩, ⟨"1036", "French"⟩]

/-- The C3 counterexample table: its only qualifier holds a translation
for 1036 only. -/
def c3Table : TableDef :=
  ⟨"T1", "account", [⟨"DisplayName", [⟨"1036", "Compte"⟩]⟩]⟩

/-! ## Site-map import slice of `importTranslations` (claim C6)

`prepareSiteMapContent` (lines 882-999) iterates rows with
`sheet.eachRow(async (row) => ...)`.  ExcelJS `eachRow` invokes the
callback synchronously for each row and discards the returned promise,
so each callback runs only up to its first `await` — the
`getSiteMapById` fetch issued when the row's site map is not yet cached —
before `prepareSiteMapContent` itself returns.  The continuation after
the fetch (which inserts the document into `siteMapUpdates` and patches
it) runs only when the network promise resolves, which cannot happen
before the importer's synchronous `siteMapUpdates.size > 0` check at
line 202, because no intervening `await` yields to I/O in a
sitemap-only workbook.  The model therefore splits each row into its
synchronous part and a deferred task. -/

/-- A row continuation deferred behind the `getSiteMapById` await. -/
structure SiteMapRowTask where
  siteMapId : String
  elementType : String
  ty : String
  elementId : String
  labels : List (Option Int × String)
deriving DecidableEq, Repr

/-- Lines 951-989 applied to a cached document: locate the element of the
given tag with matching `Id` attribute and rewrite its caption container
(`setSiteMapCaptionOn`); the flag reports whether it was found. -/
def patchSiteMapElement (elementType elementId ty : String)
    (labels : List (Option Int × String)) (doc : XElem) : XElem × Bool :=
  doc.patchDoc (fun e => e.tag == elementType && e.getAttr "Id" == some elementId)
    (XElem.setSiteMapCaptionOn ty labels)

/-- The synchronous part of one `prepareSiteMapContent` row callback:
rows lacking ids or labels are skipped; a row whose site map is cached is
patched in place; a row that must fetch defers the rest of its body. -/
def prepareSiteMapRowSync (elementType : String) (langStartCol : Nat)
    (lcids : List (Option Int)) (elementIdCol typeCol : Nat) (row : Row)
    (st : List (String × XElem) × List SiteMapRowTask) :
    List (String × XElem) × List SiteMapRowTask :=
  let siteMapId := jsTrim (row.getCell 2).jsString
  let elementId := jsTrim (row.getCell elementIdCol).jsString
  let ty := jsTrim (row.getCell typeCol).jsString
  if siteMapId = "" ∨ elementId = "" then st
  else
    let labels := readLabels row langStartCol lcids
    if labels.isEmpty then st
    else
      match mapGet st.1 siteMapId with
      | some doc =>
        let r := patchSiteMapElement elementType elementId ty labels doc
        if r.2 then (mapSet st.1 siteMapId r.1, st.2) else st
      | none => (st.1, st.2 ++ [⟨siteMapId, elementType, ty, elementId, labels⟩])

/-- The synchronous phase of `prepareSiteMapContent` on a whole sheet:
language start column detected from the header (default 5), element-id
and Type columns chosen per element type (lines 901-913), then every data
row's synchronous part in order. -/
def prepareSiteMapContentSync (elementType : String) (sheet : Sheet)
    (st : List (String × XElem) × List SiteMapRowTask) :
    List (String × XElem) × List SiteMapRowTask :=
  let langStartCol := detectLangStart sheet 5
  let lcids := getLanguageColumns sheet langStartCol
  let cols : Nat × Nat :=
    if elementType == "Area" then (3, 4)
    else if elementType == "Group" then (4, 5)
    else (5, 6)
  sheet.rows.foldl
    (fun st row => prepareSiteMapRowSync elementType langStartCol lcids cols.1 cols.2 row st)
    st

/-- Sheet-name dispatch of the import loop (lines 158-174). -/
def sheetElementType : String → Option String
  | "SiteMap Areas" => some "Area"
  | "SiteMap Groups" => some "Group"
  | "SiteMap SubAreas" => some "SubArea"
  | _ => none

/-- The site-map slice of `importTranslations`: the sheet loop runs each
site-map sheet's synchronous phase, then line 202 flushes the cache only
when it is non-empty; the deferred row continuations resolve after that
check, so their patches are never flushed.  Returns the `updateSiteMap`
calls issued (`applySiteMapUpdates`, lines 1004-1026: one per cache
entry, in order). -/
def importSiteMapUpdateCalls (sheets : List (String × Sheet)) :
    List (String × XElem) :=
  let st := sheets.foldl (fun st sh =>
    match sheetElementType sh.1 with
    | some etype => prepareSiteMapContentSync etype sh.2 st
    | none => st) (([], []) : List (String × XElem) × List SiteMapRowTask)
  if st.1.length > 0 then st.1 else []

/-- The SiteMap Areas sheet of the C6 scenario: one fully valid row. -/
def c6Sheet : Sheet :=
  { header := [.str "SiteMap Name", .str "SiteMap Id", .str "Area Id",
      .str "Type", .num 1033],
    rows := [[.str "MySiteMap", .str "SM1", .str "MainArea", .str "Title", .str "Ventes"]] }

end EasyTranslator

namespace EasyTranslator

theorem XElem.tag_mk (t : String) (a : List (String × String)) (cs : List XElem) :
    (XElem.mk t a cs).tag = t := rfl

theorem XElem.attrs_mk (t : String) (a : List (String × String)) (cs : List XElem) :
    (XElem.mk t a cs).attrs = a := rfl

theorem XElem.children_mk (t : String) (a : List (String × String)) (cs : List XElem) :
    (XElem.mk t a cs).children = cs := rfl

theorem XElem.getAttr_mk (n t : String) (a : List (String × String)) (cs : List XElem) :
    (XElem.mk t a cs).getAttr n = (a.find? fun p => p.1 == n).map (·.2) := rfl

/-- Updating the direct-child container of one tag preserves the direct
children of every other tag. -/
theorem setDirectContainer_filter_other (name other : String) (h : other ≠ name)
    (newKids : List XElem) (cs : List XElem) :
    (setDirectContainer name newKids cs).filter (fun c => c.tag == other)
      = cs.filter (fun c => c.tag == other) := by
  have hno : (name == other) = false := beq_eq_false_iff_ne.mpr fun hh => h hh.symm
  induction cs with
  | nil => simp [setDirectContainer, XElem.tag_mk, hno]
  | cons c cs ih =>
    by_cases hc : (c.tag == name) = true
    · have hceq := eq_of_beq hc
      have hcno : (c.tag == other) = false := by rw [hceq]; exact hno
      simp [setDirectContainer, hc, List.filter_cons, hcno, XElem.tag_mk]
    · simp [setDirectContainer, hc, List.filter_cons, ih]

/-- After updating the direct-child container of a tag, the first direct
child with that tag holds exactly the new caption children. -/
theorem setDirectContainer_find?_children (name : String)
    (newKids : List XElem) (cs : List XElem) :
    ((setDirectContainer name newKids cs).find? (fun c => c.tag == name)).map XElem.children
      = some newKids := by
  induction cs with
  | nil => simp [setDirectContainer, XElem.tag_mk, XElem.children]
  | cons c cs ih =>
    by_cases hc : (c.tag == name) = true
    · simp [setDirectContainer, hc, List.find?_cons, XElem.tag_mk, XElem.children]
    · simp [setDirectContainer, hc, List.find?_cons, ih]

/-- C8: patching a site-map element with a row of Type "Description"
leaves the element's direct `Titles` children untouched (none modified,
none created) and leaves the element's first direct `Descriptions` child
holding exactly the rendered label dictionary; symmetrically, a "Title"
row leaves `Descriptions` children untouched and writes only a direct
`Titles` container. -/
theorem c8_sitemap_qualifier_routing (e : XElem) (labels : List (Option Int × String)) :
    ((XElem.setSiteMapCaptionOn "Description" labels e).children.filter
        (fun c => c.tag == "Titles")
      = e.children.filter (fun c => c.tag == "Titles") ∧
     ((XElem.setSiteMapCaptionOn "Description" labels e).children.find?
        (fun c => c.tag == "Descriptions")).map XElem.children
      = some (renderSiteMapLabels "Description" "Description" labels)) ∧
    ((XElem.setSiteMapCaptionOn "Title" labels e).children.filter
        (fun c => c.tag == "Descriptions")
      = e.children.filter (fun c => c.tag == "Descriptions") ∧
     ((XElem.setSiteMapCaptionOn "Title" labels e).children.find?
        (fun c => c.tag == "Titles")).map XElem.children
      = some (renderSiteMapLabels "Title" "Title" labels)) := by
  have hD : XElem.setSiteMapCaptionOn "Description" labels e
      = .mk e.tag e.attrs (setDirectContainer "Descriptions"
          (renderSiteMapLabels "Description" "Description" labels) e.children) := by
    simp [XElem.setSiteMapCaptionOn]
  have hT : XElem.setSiteMapCaptionOn "Title" labels e
      = .mk e.tag e.attrs (setDirectContainer "Titles"
          (renderSiteMapLabels "Title" "Title" labels) e.children) := by
    simp [XElem.setSiteMapCaptionOn]
  simp only [hD, hT, XElem.children_mk]
  exact ⟨⟨setDirectContainer_filter_other _ _ (by decide) _ _,
          setDirectContainer_find?_children _ _ _⟩,
         ⟨setDirectContainer_filter_other _ _ (by decide) _ _,
          setDirectContainer_find?_children _ _ _⟩⟩

/-- A list of rendered `label` elements never matches a predicate that
requires some other tag, so a descendant patch passes through it. -/
theorem patchDescList_renderFormLabels (p : XElem → Bool) (f : XElem → XElem)
    (hp : ∀ kv : Option Int × String,
      p (.mk "label" [("description", kv.2), ("languagecode", lcidStr kv.1)] []) = false)
    (l : List (Option Int × String)) :
    XElem.patchDescList p f (renderFormLabels l) = (renderFormLabels l, false) := by
  induction l with
  | nil => simp [renderFormLabels, XElem.patchDescList]
  | cons kv l ih =>
    simp only [renderFormLabels, List.map_cons] at ih ⊢
    rw [XElem.patchDescList]
    simp [hp kv, XElem.patchDesc, XElem.patchDescList, ih]

/-- C9: layout patches accumulate.  Patching a form's tab caption and then
a section caption of the same document (the second patch starting, as in
the code, from the document text reserialized after the first) leaves
both caption edits present in the final document. -/
theorem c9_layout_patch_accumulation (tid sid : String)
    (tabLabels0 secLabels0 : List XElem) (l1 l2 : List (Option Int × String)) :
    (patchLayoutElement "section" sid l2
      (patchLayoutElement "tab" tid l1
        (.mk "form" []
          [.mk "tab" [("id", tid)]
            [.mk "labels" [] tabLabels0,
             .mk "section" [("id", sid)] [.mk "labels" [] secLabels0]]])).1).1
    = .mk "form" []
        [.mk "tab" [("id", tid)]
          [.mk "labels" [] (renderFormLabels l1),
           .mk "section" [("id", sid)] [.mk "labels" [] (renderFormLabels l2)]]] := by
  have hskip : XElem.patchDescList
      (fun e => e.tag == "section" &&
        (e.getAttr "id" == some sid || e.getAttr "name" == some sid))
      (XElem.setLabelsOn l2) (renderFormLabels l1) = (renderFormLabels l1, false) :=
    patchDescList_renderFormLabels _ _ (fun kv => by simp [XElem.tag_mk]) l1
  simp [patchLayoutElement, XElem.patchDoc, XElem.patchDesc, XElem.patchDescList,
    XElem.setLabelsOn, XElem.tag_mk, XElem.attrs_mk, XElem.children_mk, XElem.getAttr_mk,
    hskip]

/-- C7 counterexample: an Area with no caption container of its own, whose
Group holds a `Titles` container one level deeper; `exportSiteMap`
attributes the group's titles to the area: the area's extracted Title
translations are the group's, not the empty list the claim requires. -/
theorem c7_nested_container_attributed_counterexample :
    (∀ c ∈ nestedTitlesArea.children, c.tag ≠ "Titles") ∧
    areaTitleTranslations nestedTitlesArea = [("1033", "Sales")] := by
  constructor
  · intro c hc
    simp only [nestedTitlesArea, XElem.children_mk, List.mem_singleton] at hc
    subst hc
    decide
  · rfl

/-- C7 amended: only a Group's Titles lookup is restricted to a container
that is the group's own direct child (first conjunct); an Area's Titles
lookup binds to the first `Titles` descendant at any depth, so a
container nested inside the area's group is attributed to the area
(second conjunct, for arbitrary ids and caption content). -/
theorem c7_direct_child_only_for_group_titles :
    (∀ g : XElem, groupTitlesContainer g = none ∨
      ∃ t ∈ g.children, groupTitlesContainer g = some t) ∧
    (∀ aid gid lcid txt : String,
      areaTitleTranslations
        (.mk "Area" [("Id", aid)]
          [.mk "Group" [("Id", gid)]
            [.mk "Titles" [] [.mk "Title" [("LCID", lcid), ("Title", txt)] []]]])
        = [(lcid, txt)]) := by
  constructor
  · intro g
    cases hq : g.querySelectorTag "Titles" with
    | none => exact Or.inl (by simp [groupTitlesContainer, hq])
    | some t =>
      by_cases hm : t ∈ g.children
      · exact Or.inr ⟨t, hm, by simp [groupTitlesContainer, hq, hm]⟩
      · exact Or.inl (by simp [groupTitlesContainer, hq, hm])
  · intro aid gid lcid txt
    simp [areaTitleTranslations, captionTranslations, XElem.querySelectorTag,
      XElem.findDesc, XElem.findDescList, XElem.tag_mk, XElem.getAttr_mk,
      XElem.children_mk]

/-- C5: the detected language-column start is the first column whose
header value converts to a number strictly greater than 1000, and no
earlier column does. -/
theorem c5_lang_col_detection (s : Sheet) (i : Nat) (h : findLangCol s = some i) :
    (∃ n, (s.header.getCell i).jsNumber = some n ∧ n > 1000) ∧
    (∀ j, 1 ≤ j → j < i → ∀ n, (s.header.getCell j).jsNumber = some n → ¬ n > 1000) := by
  unfold findLangCol at h
  rcases List.find?_eq_some.mp h with ⟨hp, as, bs, hsplit, hprev⟩
  constructor
  · revert hp
    cases hn : (s.header.getCell i).jsNumber with
    | none => simp
    | some n => intro hp; exact ⟨n, rfl, by simpa using hp⟩
  · intro j hj1 hji n hn hgt
    -- The scanned range splits as `as ++ i :: bs` with every column in
    -- `as` rejected; `j < i` places `j` in `as`, contradicting `n > 1000`.
    rcases List.range'_eq_append_iff.mp hsplit with ⟨k, _, has, hcons⟩
    rcases List.range'_eq_cons_iff.mp hcons.symm with ⟨hik, _, _⟩
    have hjas : j ∈ as := by
      rw [has]
      exact List.mem_range'_1.mpr ⟨hj1, by omega⟩
    have := hprev j hjas
    rw [hn] at this
    simp at this
    omega

/-- Witness for C5, on the spec's own example: header
`["x", 5, 1033]` (a business integer ≤ 1000 before a real code) detects
the column holding 1033, not the one holding 5. -/
theorem c5_lang_col_detection_witness :
    findLangCol ⟨[.str "x", .num 5, .num 1033], [[]]⟩ = some 3 ∧
    (∃ n, ((⟨[.str "x", .num 5, .num 1033], [[]]⟩ : Sheet).header.getCell 3).jsNumber = some n ∧ n > 1000) := by
  have h : findLangCol ⟨[.str "x", .num 5, .num 1033], [[]]⟩ = some 3 := by rfl
  exact ⟨h, (c5_lang_col_detection _ 3 h).1⟩

/-- C10: the computed output language list always contains the base
language's code, and when the operator's own list (all languages or the
single selected one) does not contain it, the base language is appended
as the last entry. -/
theorem c10_base_language_appended (exportAll : Bool) (allLangs : List LanguageDef)
    (sel base : LanguageDef)
    (hmiss : ¬ (if exportAll then allLangs else [sel]).any fun ld => ld.code = base.code) :
    computeOutputLangs exportAll allLangs sel base
      = (if exportAll then allLangs else [sel]) ++ [base] ∧
    ∃ ld ∈ computeOutputLangs exportAll allLangs sel base, ld.code = base.code := by
  unfold computeOutputLangs
  simp only [hmiss, if_false]
  refine ⟨rfl, base, ?_, rfl⟩
  simp

/-- Witness for C10: a single selected language 1031 with base 1033. -/
theorem c10_base_language_appended_witness :
    computeOutputLangs false [] ⟨"1031", "German"⟩ ⟨"1033", "English"⟩
      = [⟨"1031", "German"⟩, ⟨"1033", "English"⟩] := by
  exact (c10_base_language_appended false [] ⟨"1031", "German"⟩ ⟨"1033", "English"⟩
    (by decide)).1

/-- C1 counterexample: original locale 1033, sweep over [1033, 1036], the
fetch for 1036 throws.  The sweep propagates the failure with no
locale-update call carrying the original locale: the operator is left on
1036, so the locale-restore guarantee fails on the failure path. -/
theorem c1_no_restore_on_fetch_failure :
    (exportFormsSweep "1033" ["1033", "1036"] (fun l => l != "1036")).2 = false ∧
    "1033" ∉ (exportFormsSweep "1033" ["1033", "1036"] (fun l => l != "1036")).1 ∧
    finalLocale "1033"
      (exportFormsSweep "1033" ["1033", "1036"] (fun l => l != "1036")).1 = "1036" := by
  refine ⟨rfl, ?_, rfl⟩
  decide

/-- C1 amended: the revert of line 487 is reached only on the normal
path — when every per-language fetch succeeds, the sweep completes and
its last locale-update call carries the originally recorded locale; a
throwing fetch instead propagates before any restore (counterexample
above). -/
theorem c1_restore_only_on_success (uiLocale : String) (langs : List String)
    (fetchOk : String → Bool) (h : ∀ l ∈ langs, fetchOk l = true) :
    (exportFormsSweep uiLocale langs fetchOk).2 = true ∧
    ∃ pre, (exportFormsSweep uiLocale langs fetchOk).1 = pre ++ [uiLocale] := by
  unfold exportFormsSweep
  suffices hgen : ∀ (langs' : List String), (∀ l ∈ langs', fetchOk l = true) →
      ∀ (cur : String),
      (exportFormsSweepGo uiLocale fetchOk cur langs').2 = true ∧
      ∃ pre, (exportFormsSweepGo uiLocale fetchOk cur langs').1 = pre ++ [uiLocale] by
    exact hgen langs h uiLocale
  intro langs'
  induction langs' with
  | nil => intro _ cur; exact ⟨rfl, [], rfl⟩
  | cons lang rest ih =>
    intro hall cur
    have hfl : fetchOk lang = true := hall lang (List.mem_cons_self _ _)
    rcases ih (fun l hl => hall l (List.mem_cons_of_mem _ hl)) lang with ⟨hflag, pre, hpre⟩
    constructor
    · simp [exportFormsSweepGo, hfl, hflag]
    · refine ⟨(if cur ≠ lang then [lang] else []) ++ pre, ?_⟩
      simp [exportFormsSweepGo, hfl, hpre]

/-- Witness for the amended C1: both fetches succeed, the sweep ends with
the restore call to the original locale. -/
theorem c1_restore_only_on_success_witness :
    (exportFormsSweep "1033" ["1036"] (fun _ => true)).2 = true ∧
    ∃ pre, (exportFormsSweep "1033" ["1036"] (fun _ => true)).1 = pre ++ ["1033"] :=
  c1_restore_only_on_success "1033" ["1036"] (fun _ => true) (by simp)

/-- C4, evaluated at the failing input: a Forms Tabs sheet whose row 2
lacks the Tab Id and whose row 3 is valid.  The TypeScript `return` hit
at row 2 exits `prepareFormContent` entirely, so no form update is
prepared at all (first conjunct), although the same valid row alone would
have produced the patched form (second conjunct): the bad row aborts the
sheet instead of being skipped. -/
theorem c4_bad_row_aborts_sheet :
    prepareFormContent c4Fetch "tab" tabsSheetWithBadRow [] = [] ∧
    prepareFormContent c4Fetch "tab" tabsSheetValidOnly []
      = [("F1", .mk "form" [] [.mk "tab" [("id", "tab1")]
          [.mk "labels" []
            [.mk "label" [("description", "Hello"), ("languagecode", "1033")] []]]])] :=
  ⟨rfl, rfl⟩

/-- C6, evaluated at the failing input: a workbook holding one SiteMap
Areas sheet with one fully valid row.  The row's continuation is deferred
behind its `getSiteMapById` fetch (second conjunct: exactly one deferred
task), so the cache is empty at the post-loop flush check and no
`updateSiteMap` call is ever issued (first conjunct): the cached site-map
document is written back zero times, not exactly once. -/
theorem c6_sitemap_flush_skipped :
    importSiteMapUpdateCalls [("SiteMap Areas", c6Sheet)] = [] ∧
    (prepareSiteMapContentSync "Area" c6Sheet ([], [])).2.length = 1 :=
  ⟨rfl, rfl⟩

/-- C3 counterexample: on the Entities sheet with requested languages
[1033, 1036], a qualifier whose translation list holds only the 1036
entry "Compte" puts "Compte" in the cell under the 1033 header column
(the language cells are written positionally), where the claim requires
an empty cell. -/
theorem c3_positional_cells_counterexample :
    (exportTableInfoSheet .both enFrLangs [c3Table]).header.getCell 4
      = CellVal.str "1033" ∧
    (∀ tr ∈ (⟨"DisplayName", [⟨"1036", "Compte"⟩]⟩ : LangProp).translation,
      tr.code ≠ "1033") ∧
    ((exportTableInfoSheet .both enFrLangs [c3Table]).rows.getD 0 []).getCell 4
      = CellVal.str "Compte" := by
  refine ⟨rfl, by decide, rfl⟩

/-- `find?` on a translation list with duplicate-free codes returns the
member carrying the sought code. -/
theorem find?_code_of_mem_nodup (l : List LangTranslation) (tr : LangTranslation)
    (L : String) (htr : tr ∈ l) (hcode : tr.code = L)
    (hnd : (l.map LangTranslation.code).Nodup) :
    l.find? (fun t => t.code = L) = some tr := by
  induction l with
  | nil => cases htr
  | cons a l ih =>
    have hnd' : (∀ x ∈ l, ¬ x.code = a.code) ∧ (l.map LangTranslation.code).Nodup := by
      simpa using hnd
    obtain ⟨hnotin, hndtail⟩ := hnd'
    rcases List.mem_cons.mp htr with rfl | hmem
    · simp [List.find?_cons, hcode]
    · have ha : (decide (a.code = L)) = false := by
        refine decide_eq_false ?_
        intro haL
        exact hnotin tr hmem (by rw [hcode, haL])
      rw [List.find?_cons]
      simp only [ha]
      exact ih hmem hndtail

/-- C3 amended: on the Booleans (and option-set) sheets the cell under a
requested language L's column is exactly the translation whose code is L
— the empty string when the list has no entry for L (first conjunct), the
entry's own text when it has one (second conjunct, codes duplicate-free);
the Entities-style sheets instead write the stored translation list
positionally (counterexample above). -/
theorem c3_boolean_cells_aligned (outputLangs : List LanguageDef) (lp : LangProp)
    (i : Nat) (L : String) (hL : outputLangs[i]?.map LanguageDef.code = some L) :
    ((∀ tr ∈ lp.translation, tr.code ≠ L) →
      (exportBooleanLangCells outputLangs lp)[i]? = some (CellVal.str "")) ∧
    (∀ tr ∈ lp.translation, tr.code = L →
      (lp.translation.map LangTranslation.code).Nodup →
      (exportBooleanLangCells outputLangs lp)[i]? = some (CellVal.str tr.translation)) := by
  obtain ⟨lang, hlang, hcode⟩ := Option.map_eq_some'.mp hL
  constructor
  · intro habs
    have hfind : lp.translation.find? (fun t => t.code = lang.code) = none := by
      apply List.find?_eq_none.mpr
      intro tr htr
      simpa [hcode] using habs tr htr
    simp [exportBooleanLangCells, List.getElem?_map, hlang, hfind]
  · intro tr htr hcodeeq hnd
    have hfind : lp.translation.find? (fun t => t.code = lang.code) = some tr := by
      rw [hcode]
      exact find?_code_of_mem_nodup _ _ _ htr hcodeeq hnd
    simp [exportBooleanLangCells, List.getElem?_map, hlang, hfind]

/-- Witness for the amended C3, on a concrete Booleans row: language 1036
takes its own entry, language 1031 (absent from the list) an empty cell. -/
theorem c3_boolean_cells_aligned_witness :
    (exportBooleanLangCells [⟨"1031", "German"⟩, ⟨"1036", "French"⟩]
        ⟨"Label", [⟨"1036", "Oui"⟩]⟩)[0]? = some (CellVal.str "") ∧
    (exportBooleanLangCells [⟨"1031", "German"⟩, ⟨"1036", "French"⟩]
        ⟨"Label", [⟨"1036", "Oui"⟩]⟩)[1]? = some (CellVal.str "Oui") := by
  constructor
  · exact (c3_boolean_cells_aligned [⟨"1031", "German"⟩, ⟨"1036", "French"⟩]
      ⟨"Label", [⟨"1036", "Oui"⟩]⟩ 0 "1031" rfl).1 (by decide)
  · exact (c3_boolean_cells_aligned [⟨"1031", "German"⟩, ⟨"1036", "French"⟩]
      ⟨"Label", [⟨"1036", "Oui"⟩]⟩ 1 "1036" rfl).2 ⟨"1036", "Oui"⟩
      (by decide) rfl (by decide)

/-- C2 counterexample: exporting a one-entity tree holding the 1033
display name "Account" and importing the produced sheet unmodified
issues an `updateEntityMetadata` call whose display-name dictionary is
the non-empty `[(1033, "Account")]` — not zero non-empty Update Units. -/
theorem c2_roundtrip_counterexample :
    importEntitiesCalls (exportTableInfoSheet .both enFrLangs [c2Table])
      = [⟨"account", some [(some 1033, "Account")], none, none⟩] ∧
    ¬ entitiesRoundTripSilent .both enFrLangs [c2Table] := by
  refine ⟨rfl, fun h => ?_⟩
  have h2 := h ⟨"account", some [(some 1033, "Account")], none, none⟩
    (List.mem_singleton_self _)
  simpa using h2.1

/-- Reading a cell past a prefix lands in the suffix. -/
theorem getCell_append_right (pre xs : List CellVal) (i : Nat) :
    Row.getCell (pre ++ xs) (pre.length + 1 + i) = xs.getD i .empty := by
  show (pre ++ xs).getD (pre.length + 1 + i - 1) .empty = xs.getD i .empty
  rw [show pre.length + 1 + i - 1 = pre.length + i by omega,
    List.getD_append_right pre xs _ _ (Nat.le_add_right _ _),
    Nat.add_sub_cancel_left]

/-- Scanning the language block of a header `pre ++ codes` (one string
cell per code) collects `Number(code)` for every code, in order. -/
theorem filterMap_langcols_go (pre : List CellVal) (codes : List String) :
    (List.range' (pre.length + 1) codes.length).filterMap (fun col =>
      match Row.getCell (pre ++ codes.map CellVal.str) col with
      | .empty => none
      | v => some v.jsNumber)
    = codes.map parseJsInt := by
  induction codes generalizing pre with
  | nil => simp
  | cons c rest ih =>
    rw [List.length_cons, List.range'_succ, List.filterMap_cons]
    have hcell : Row.getCell (pre ++ (c :: rest).map CellVal.str) (pre.length + 1)
        = CellVal.str c := by
      have h0 := getCell_append_right pre ((c :: rest).map CellVal.str) 0
      simpa using h0
    rw [hcell]
    have hsplit : pre ++ (c :: rest).map CellVal.str
        = (pre ++ [CellVal.str c]) ++ rest.map CellVal.str := by simp
    rw [hsplit]
    have ih' := ih (pre ++ [CellVal.str c])
    have hlen : (pre ++ [CellVal.str c]).length + 1 = pre.length + 1 + 1 := by simp
    rw [hlen] at ih'
    rw [ih']
    simp [CellVal.jsNumber]

/-- `getLanguageColumns` on a sheet whose header is three identity cells
followed by one string cell per language code. -/
theorem getLanguageColumns_append (s : Sheet) (pre : List CellVal) (codes : List String)
    (hheader : s.header = pre ++ codes.map CellVal.str)
    (hpre : pre.length = 3)
    (hcount : s.columnCount = 3 + codes.length) :
    getLanguageColumns s 4 = codes.map parseJsInt := by
  unfold getLanguageColumns
  rw [hcount, hheader]
  rw [show 3 + codes.length + 1 - 4 = codes.length by omega]
  have := filterMap_langcols_go pre codes
  rw [hpre] at this
  exact this

/-- `readLabelsGo` over a row `pre ++ texts` (one non-blank string cell
per text), starting just past the prefix, pairs the LCIDs with the texts
positionally. -/
theorem readLabelsGo_append (texts : List String) (pre : List CellVal)
    (lcids : List (Option Int)) (hlen : lcids.length = texts.length)
    (hnb : ∀ tx ∈ texts, jsTrim tx ≠ "") :
    readLabelsGo (pre ++ texts.map CellVal.str) (pre.length + 1) lcids
      = lcids.zip texts := by
  induction texts generalizing pre lcids with
  | nil =>
    rw [List.length_nil] at hlen
    rw [List.eq_nil_of_length_eq_zero hlen]
    simp [readLabelsGo]
  | cons t trest ih =>
    cases lcids with
    | nil => simp at hlen
    | cons lcid lrest =>
      rw [readLabelsGo]
      have hcell : Row.getCell (pre ++ (t :: trest).map CellVal.str) (pre.length + 1)
          = CellVal.str t := by
        have h0 := getCell_append_right pre ((t :: trest).map CellVal.str) 0
        simpa using h0
      rw [hcell]
      have hnbt : jsTrim t ≠ "" := hnb t (List.mem_cons_self _ _)
      have hsplit : pre ++ (t :: trest).map CellVal.str
          = (pre ++ [CellVal.str t]) ++ trest.map CellVal.str := by simp
      rw [hsplit]
      have ih' := ih (pre ++ [CellVal.str t]) lrest
        (by simpa using hlen)
        (fun tx htx => hnb tx (List.mem_cons_of_mem _ htx))
      have hlen2 : (pre ++ [CellVal.str t]).length + 1 = pre.length + 1 + 1 := by simp
      rw [hlen2] at ih'
      rw [ih']
      simp [CellVal.jsString, hnbt]

/-- Setting a key absent from an association list appends it. -/
theorem mapSet_append_of_not_mem {κ α : Type} [BEq κ] [LawfulBEq κ]
    (m : List (κ × α)) (k : κ) (v : α) (h : ∀ p ∈ m, p.1 ≠ k) :
    mapSet m k v = m ++ [(k, v)] := by
  induction m with
  | nil => rfl
  | cons p rest ih =>
    have hp : (p.1 == k) = false :=
      beq_eq_false_iff_ne.mpr (h p (List.mem_cons_self _ _))
    simp [mapSet, hp, ih (fun q hq => h q (List.mem_cons_of_mem _ hq))]

/-- Merging a duplicate-free record whose keys are disjoint from the
accumulator appends its entries in order. -/
theorem recordMerge_append (l : List (Option Int × String)) :
    ∀ acc : List (Option Int × String),
      (∀ p ∈ acc, ∀ q ∈ l, p.1 ≠ q.1) → (l.map Prod.fst).Nodup →
      recordMerge acc l = acc ++ l := by
  induction l with
  | nil => intro acc _ _; simp [recordMerge]
  | cons kv rest ih =>
    intro acc hdisj hnd
    have hnd' : (∀ q ∈ rest, ¬ q.1 = kv.1) ∧ (rest.map Prod.fst).Nodup := by
      constructor
      · intro q hq hqk
        exact (List.nodup_cons.mp (by simpa using hnd)).1
          (hqk ▸ List.mem_map_of_mem Prod.fst hq)
      · exact (List.nodup_cons.mp (by simpa using hnd)).2
    have hstep : recordMerge acc (kv :: rest)
        = recordMerge (mapSet acc kv.1 kv.2) rest := rfl
    rw [hstep,
      mapSet_append_of_not_mem acc kv.1 kv.2
        (fun p hp => hdisj p hp kv (List.mem_cons_self _ _)),
      ih (acc ++ [(kv.1, kv.2)]) ?_ hnd'.2]
    · simp
    · intro p hp q hq
      rcases List.mem_append.mp hp with hacc | hkv
      · exact hdisj p hacc q (List.mem_cons_of_mem _ hq)
      · have : p = (kv.1, kv.2) := by simpa using hkv
        rw [this]
        exact fun hh => hnd'.1 q hq hh.symm

/-- A duplicate-free record merged into the empty accumulator is itself. -/
theorem recordMerge_nil (l : List (Option Int × String))
    (hnd : (l.map Prod.fst).Nodup) :
    recordMerge [] l = l := by
  have := recordMerge_append l [] (by simp) hnd
  simpa using this

/-- C2 amended: re-importing an unmodified export re-issues the exported
labels instead of producing zero Update Units.  For a tree with one
entity carrying one DisplayName qualifier whose translation list is
aligned with the output languages (one non-blank entry per language, in
order, duplicate-free numeric codes), the round trip issues exactly one
`updateEntityMetadata` call, and its display-name dictionary is exactly
the exported translations — a value-level no-op, but a non-empty Update
Unit per exported row. -/
theorem c2_roundtrip_reissues_exported_labels (t : TableDef) (ts : List LangTranslation)
    (ls : List LanguageDef)
    (hprops : t.langProps = [⟨"DisplayName", ts⟩])
    (halign : ts.map LangTranslation.code = ls.map LanguageDef.code)
    (hne : ts ≠ [])
    (hnb : ∀ tr ∈ ts, jsTrim tr.translation ≠ "")
    (hname : jsTrim t.logicalName ≠ "")
    (hkeys : (ts.map fun tr => parseJsInt tr.code).Nodup) :
    importEntitiesCalls (exportTableInfoSheet .both ls [t])
      = [⟨jsTrim t.logicalName,
          some (ts.map fun tr => (parseJsInt tr.code, tr.translation)),
          none, none⟩] := by
  have hlen : ts.length = ls.length := by
    have := congrArg List.length halign
    simpa using this
  have hrows : (exportTableInfoSheet .both ls [t]).rows
      = [exportTableInfoRow t ⟨"DisplayName", ts⟩] := by
    simp [exportTableInfoSheet, tableInfoLangProps, hprops]
  have hheader : (exportTableInfoSheet .both ls [t]).header
      = [CellVal.str "Entity Id", CellVal.str "Entity Logical Name", CellVal.str "Type"]
        ++ (ls.map LanguageDef.code).map CellVal.str := by
    rw [List.map_map]
    rfl
  have hcount : (exportTableInfoSheet .both ls [t]).columnCount
      = 3 + (ls.map LanguageDef.code).length := by
    unfold Sheet.columnCount
    rw [hrows, hheader]
    simp only [List.foldl_cons, List.foldl_nil, exportTableInfoRow, List.length_append,
      List.length_map, List.length_cons, List.length_nil]
    omega
  have hlcids : getLanguageColumns (exportTableInfoSheet .both ls [t]) 4
      = ts.map fun tr => parseJsInt tr.code := by
    rw [getLanguageColumns_append _ _ _ hheader (by simp) hcount, ← halign,
      List.map_map]
    rfl
  have hlabels : readLabels (exportTableInfoRow t ⟨"DisplayName", ts⟩) 4
      (ts.map fun tr => parseJsInt tr.code)
      = ts.map fun tr => (parseJsInt tr.code, tr.translation) := by
    unfold readLabels
    have hrowshape : exportTableInfoRow t ⟨"DisplayName", ts⟩
        = [CellVal.str ("\x7b" ++ t.id ++ "\x7d"), CellVal.str t.logicalName,
            CellVal.str "DisplayName"]
          ++ (ts.map LangTranslation.translation).map CellVal.str := by
      rw [List.map_map]
      rfl
    rw [hrowshape]
    have := readLabelsGo_append (ts.map LangTranslation.translation)
      [CellVal.str ("\x7b" ++ t.id ++ "\x7d"), CellVal.str t.logicalName,
        CellVal.str "DisplayName"]
      (ts.map fun tr => parseJsInt tr.code)
      (by simp)
      (by intro tx htx
          obtain ⟨tr, htr, rfl⟩ := List.mem_map.mp htx
          exact hnb tr htr)
    simp only [List.length_cons, List.length_nil] at this
    rw [this, List.zip_map']
  have hcell2 : (exportTableInfoRow t ⟨"DisplayName", ts⟩).getCell 2
      = CellVal.str t.logicalName := by
    simp [exportTableInfoRow, Row.getCell]
  have hcell3 : (exportTableInfoRow t ⟨"DisplayName", ts⟩).getCell 3
      = CellVal.str "DisplayName" := by
    simp [exportTableInfoRow, Row.getCell]
  have hmerge : recordMerge []
      (ts.map fun tr => (parseJsInt tr.code, tr.translation))
      = ts.map fun tr => (parseJsInt tr.code, tr.translation) := by
    apply recordMerge_nil
    simpa [List.map_map, Function.comp] using hkeys
  have hgroups : importEntitiesGroups (exportTableInfoSheet .both ls [t])
      = [(jsTrim t.logicalName,
          ⟨ts.map fun tr => (parseJsInt tr.code, tr.translation), [], []⟩)] := by
    unfold importEntitiesGroups
    rw [hlcids, hrows]
    simp only [List.foldl_cons, List.foldl_nil, hcell2, hcell3, CellVal.jsString]
    rw [if_neg (by
      push_neg
      exact ⟨hname, by decide⟩)]
    simp only [mapGet, mapSet, List.find?_nil, Option.map_none', Option.isSome_none,
      Bool.false_eq_true, if_false, if_pos rfl, List.find?_cons, beq_self_eq_true,
      Option.map_some', Option.getD_some, hlabels, hmerge]
    have hdn : jsTrim "DisplayName" = "DisplayName" := rfl
    simp [hdn]
  unfold importEntitiesCalls
  rw [hgroups]
  have hpos : 0 < (ts.map fun tr => (parseJsInt tr.code, tr.translation)).length := by
    simpa [List.length_pos] using hne
  simp [hpos]
  exact hne

/-- Witness for the amended C2: the one-entity tree of the counterexample
satisfies the alignment hypotheses, and its round trip issues exactly the
exported display-name dictionary. -/
theorem c2_roundtrip_reissues_exported_labels_witness :
    importEntitiesCalls (exportTableInfoSheet .both [⟨"1033", "English"⟩] [c2Table])
      = [⟨"account", some [(some 1033, "Account")], none, none⟩] := by
  have h := c2_roundtrip_reissues_exported_labels c2Table
    [⟨"1033", "Account"⟩] [⟨"1033", "English"⟩]
    rfl rfl (by decide) (by decide) (by decide) (by decide)
  simpa using h

end EasyTranslator
